import Mathlib

/-!
A verification development for the terminal printer of the doc_website
repository (file src/printer/terminal.rs).  The Rust data model and the
rendering routines are embedded shallowly: pure string building is kept as
string building, and a Rust panic (an Option::unwrap applied to None, which
aborts the render) is modelled as an Option.none result that propagates to
the top of the render.  Machine integers that matter (the i64 indentation
parameter) are modelled as Int.  All definitions are executable.
-/

set_option maxHeartbeats 1000000

/-- Kind discriminant of a type expression (doc::ts_type::TsTypeDefKind in the
Rust source). -/
inductive TsTypeDefKind where
  | Array
  | Conditional
  | FnOrConstructor
  | IndexedAccess
  | Intersection
  | Keyword
  | Literal
  | Optional
  | Parenthesized
  | Rest
  | This
  | Tuple
  | TypeLiteral
  | TypeOperator
  | TypeQuery
  | TypeRef
  | Union
deriving DecidableEq

/-- Kind discriminant of a literal type (doc::ts_type::LiteralDefKind). -/
inductive LiteralDefKind where
  | Boolean
  | String
  | Number
deriving DecidableEq

/-- Payload of a Literal type expression.  The terminal printer reads the
field matching the literal kind; the number field is an f64 in Rust and is
modelled as Float (no claim inspects its textual form). -/
structure LiteralDef where
  kind : LiteralDefKind
  boolean : Option Bool
  string : Option String
  number : Option Float

/-- Payload of a Conditional type expression, parameterized by the type of
nested type expressions (it is instantiated with TsTypeDef below). -/
structure TsConditionalDefF (τ : Type) where
  check_type : τ
  extends_type : τ
  true_type : τ
  false_type : τ

/-- A function or constructor parameter (doc::ParamDef): a name and an
optional type annotation. -/
structure ParamDefF (τ : Type) where
  name : String
  ts_type : Option τ

/-- Payload of a FnOrConstructor type expression. -/
structure TsFnOrConstructorDefF (τ : Type) where
  constructor : Bool
  params : List (ParamDefF τ)
  ts_type : τ

/-- Payload of an IndexedAccess type expression. -/
structure TsIndexedAccessDefF (τ : Type) where
  obj_type : τ
  index_type : τ

/-- Payload of a TypeOperator type expression. -/
structure TsTypeOperatorDefF (τ : Type) where
  operator : String
  ts_type : τ

/-- Payload of a TypeRef type expression: a type name and an optional list of
type arguments. -/
structure TsTypeRefDefF (τ : Type) where
  type_name : String
  type_params : Option (List τ)

/-- A type expression (doc::ts_type::TsTypeDef).  As in the Rust source the
variant payloads are independently optional fields next to an optional kind
discriminant; the renderer unwraps the field matching the kind and panics on
a mismatch.  Only the fields the terminal printer reads are modelled. -/
inductive TsTypeDef where
  | mk (repr : String)
       (kind : Option TsTypeDefKind)
       (array : Option TsTypeDef)
       (conditional_type : Option (TsConditionalDefF TsTypeDef))
       (fn_or_constructor : Option (TsFnOrConstructorDefF TsTypeDef))
       (indexed_access : Option (TsIndexedAccessDefF TsTypeDef))
       (intersection : Option (List TsTypeDef))
       (keyword : Option String)
       (literal : Option LiteralDef)
       (parenthesized : Option TsTypeDef)
       (rest : Option TsTypeDef)
       (tuple : Option (List TsTypeDef))
       (type_operator : Option (TsTypeOperatorDefF TsTypeDef))
       (type_query : Option String)
       (type_ref : Option (TsTypeRefDefF TsTypeDef))
       (union : Option (List TsTypeDef))

/-- Conditional payload instantiated at TsTypeDef. -/
abbrev TsConditionalDef := TsConditionalDefF TsTypeDef

/-- Parameter definition instantiated at TsTypeDef. -/
abbrev ParamDef := ParamDefF TsTypeDef

/-- FnOrConstructor payload instantiated at TsTypeDef. -/
abbrev TsFnOrConstructorDef := TsFnOrConstructorDefF TsTypeDef

/-- IndexedAccess payload instantiated at TsTypeDef. -/
abbrev TsIndexedAccessDef := TsIndexedAccessDefF TsTypeDef

/-- TypeOperator payload instantiated at TsTypeDef. -/
abbrev TsTypeOperatorDef := TsTypeOperatorDefF TsTypeDef

/-- TypeRef payload instantiated at TsTypeDef. -/
abbrev TsTypeRefDef := TsTypeRefDefF TsTypeDef

/-- Field accessor for the pre-rendered textual representation. -/
def TsTypeDef.repr : TsTypeDef → String
  | .mk r _ _ _ _ _ _ _ _ _ _ _ _ _ _ _ => r

/-- Field accessor for the kind discriminant. -/
def TsTypeDef.kind : TsTypeDef → Option TsTypeDefKind
  | .mk _ k _ _ _ _ _ _ _ _ _ _ _ _ _ _ => k

/-- Field accessor for the Array payload. -/
def TsTypeDef.array : TsTypeDef → Option TsTypeDef
  | .mk _ _ a _ _ _ _ _ _ _ _ _ _ _ _ _ => a

/-- Field accessor for the Conditional payload. -/
def TsTypeDef.conditional_type : TsTypeDef → Option TsConditionalDef
  | .mk _ _ _ c _ _ _ _ _ _ _ _ _ _ _ _ => c

/-- Field accessor for the FnOrConstructor payload. -/
def TsTypeDef.fn_or_constructor : TsTypeDef → Option TsFnOrConstructorDef
  | .mk _ _ _ _ f _ _ _ _ _ _ _ _ _ _ _ => f

/-- Field accessor for the IndexedAccess payload. -/
def TsTypeDef.indexed_access : TsTypeDef → Option TsIndexedAccessDef
  | .mk _ _ _ _ _ i _ _ _ _ _ _ _ _ _ _ => i

/-- Field accessor for the Intersection payload. -/
def TsTypeDef.intersection : TsTypeDef → Option (List TsTypeDef)
  | .mk _ _ _ _ _ _ i _ _ _ _ _ _ _ _ _ => i

/-- Field accessor for the Keyword payload. -/
def TsTypeDef.keyword : TsTypeDef → Option String
  | .mk _ _ _ _ _ _ _ k _ _ _ _ _ _ _ _ => k

/-- Field accessor for the Literal payload. -/
def TsTypeDef.literal : TsTypeDef → Option LiteralDef
  | .mk _ _ _ _ _ _ _ _ l _ _ _ _ _ _ _ => l

/-- Field accessor for the Parenthesized payload. -/
def TsTypeDef.parenthesized : TsTypeDef → Option TsTypeDef
  | .mk _ _ _ _ _ _ _ _ _ p _ _ _ _ _ _ => p

/-- Field accessor for the Rest payload. -/
def TsTypeDef.rest : TsTypeDef → Option TsTypeDef
  | .mk _ _ _ _ _ _ _ _ _ _ r _ _ _ _ _ => r

/-- Field accessor for the Tuple payload. -/
def TsTypeDef.tuple : TsTypeDef → Option (List TsTypeDef)
  | .mk _ _ _ _ _ _ _ _ _ _ _ t _ _ _ _ => t

/-- Field accessor for the TypeOperator payload. -/
def TsTypeDef.type_operator : TsTypeDef → Option TsTypeOperatorDef
  | .mk _ _ _ _ _ _ _ _ _ _ _ _ t _ _ _ => t

/-- Field accessor for the TypeQuery payload. -/
def TsTypeDef.type_query : TsTypeDef → Option String
  | .mk _ _ _ _ _ _ _ _ _ _ _ _ _ t _ _ => t

/-- Field accessor for the TypeRef payload. -/
def TsTypeDef.type_ref : TsTypeDef → Option TsTypeRefDef
  | .mk _ _ _ _ _ _ _ _ _ _ _ _ _ _ t _ => t

/-- Field accessor for the Union payload. -/
def TsTypeDef.union : TsTypeDef → Option (List TsTypeDef)
  | .mk _ _ _ _ _ _ _ _ _ _ _ _ _ _ _ u => u

/-- Models Rust String::truncate(n).  Every use in the source removes an
ASCII separator suffix, where byte count and character count coincide, so the
model truncates at the character level. -/
def truncateTo (s : String) (n : Nat) : String :=
  String.mk (s.data.take n)

/-- Models the body of the joining loops of the source: push each rendered
element followed by the separator. -/
def pushAll (sep : String) : List String → String
  | [] => ""
  | p :: ps => p ++ sep ++ pushAll sep ps

/-- Models the append-then-truncate joining idiom of the source: when the
list is non-empty, append every element followed by the separator and then
remove the trailing separator; an empty list yields the empty string. -/
def join_trunc (sep : String) (parts : List String) : String :=
  match parts with
  | [] => ""
  | _ :: _ => truncateTo (pushAll sep parts) ((pushAll sep parts).length - sep.length)

/-- Intercalation as the specification describes the joining policy: the
elements joined with the separator between consecutive elements, with no
leading or trailing separator. -/
def intercalateSpec (sep : String) : List String → String
  | [] => ""
  | [p] => p
  | p :: ps => p ++ sep ++ intercalateSpec sep ps

/-- Models Rust str::split with the literal pattern "\n\n": non-overlapping
matches scanned left to right; acc holds the current chunk reversed.  A
trailing match yields a final empty chunk, as in Rust. -/
def splitParas : List Char → List Char → List (List Char)
  | [], acc => [acc.reverse]
  | '\n' :: '\n' :: cs, acc => acc.reverse :: splitParas cs []
  | c :: cs, acc => splitParas cs (c :: acc)

/-- Models Rust str::replace with pattern "\n" and replacement " ". -/
def replaceNl : List Char → List Char
  | [] => []
  | '\n' :: cs => ' ' :: replaceNl cs
  | c :: cs => c :: replaceNl cs

/-- The paragraph list a js_doc comment is formatted from, from the source:
jsdoc.split("\n\n").map(|line| line.replace("\n", " ")). -/
def jsdocLines (jsdoc : String) : List String :=
  (splitParas jsdoc.data []).map (fun l => String.mk (replaceNl l))

mutual

/-- Embedding of TerminalPrinter::render_ts_type.  The source first unwraps
the kind discriminant and then the payload field matching it; each unwrap of
an absent value is a panic, modelled as none. -/
def render_ts_type : TsTypeDef → Option String
  | TsTypeDef.mk rep kind array conditional_type fn_or_constructor
      indexed_access intersection keyword literal parenthesized rest_
      tuple type_operator type_query type_ref union =>
    match kind with
    | none => none
    | some TsTypeDefKind.Array =>
      match array with
      | none => none
      | some inner => (render_ts_type inner).map (fun s => s ++ "[]")
    | some TsTypeDefKind.Conditional =>
      match conditional_type with
      | none => none
      | some ⟨check_type, extends_type, true_type, false_type⟩ => do
          let c ← render_ts_type check_type
          let e ← render_ts_type extends_type
          let t ← render_ts_type true_type
          let f ← render_ts_type false_type
          pure (c ++ " extends " ++ e ++ " ? " ++ t ++ " : " ++ f)
    | some TsTypeDefKind.FnOrConstructor =>
      match fn_or_constructor with
      | none => none
      | some ⟨constructor, params, ts_type⟩ => do
          let ps ← render_params_list params
          let r ← render_ts_type ts_type
          pure ((if constructor then "new " else "") ++ "(" ++ join_trunc ", " ps ++ ") => " ++ r)
    | some TsTypeDefKind.IndexedAccess =>
      match indexed_access with
      | none => none
      | some ⟨obj_type, index_type⟩ => do
          let o ← render_ts_type obj_type
          let i ← render_ts_type index_type
          pure (o ++ "[" ++ i ++ "]")
    | some TsTypeDefKind.Intersection =>
      match intersection with
      | none => none
      | some l => do
          let parts ← render_ts_type_list l
          pure (join_trunc " & " parts)
    | some TsTypeDefKind.Keyword => keyword
    | some TsTypeDefKind.Literal =>
      match literal with
      | none => none
      | some lit =>
        match lit.kind with
        | LiteralDefKind.Boolean =>
          match lit.boolean with
          | none => none
          | some b => some (if b then "true" else "false")
        | LiteralDefKind.String => lit.string
        | LiteralDefKind.Number =>
          match lit.number with
          | none => none
          | some n => some (toString n)
    | some TsTypeDefKind.Optional => some "_optional_"
    | some TsTypeDefKind.Parenthesized =>
      match parenthesized with
      | none => none
      | some inner => (render_ts_type inner).map (fun s => "(" ++ s ++ ")")
    | some TsTypeDefKind.Rest =>
      match rest_ with
      | none => none
      | some inner => (render_ts_type inner).map (fun s => "..." ++ s)
    | some TsTypeDefKind.This => some "this"
    | some TsTypeDefKind.Tuple =>
      match tuple with
      | none => none
      | some l => do
          let parts ← render_ts_type_list l
          pure (join_trunc ", " parts)
    | some TsTypeDefKind.TypeLiteral => some rep
    | some TsTypeDefKind.TypeOperator =>
      match type_operator with
      | none => none
      | some ⟨operator, ts_type⟩ =>
          (render_ts_type ts_type).map (fun s => operator ++ " " ++ s)
    | some TsTypeDefKind.TypeQuery =>
      match type_query with
      | none => none
      | some q => some ("typeof " ++ q)
    | some TsTypeDefKind.TypeRef =>
      match type_ref with
      | none => none
      | some ⟨type_name, type_params⟩ =>
        match type_params with
        | none => some type_name
        | some l => do
            let parts ← render_ts_type_list l
            pure (type_name ++ "<" ++ join_trunc ", " parts ++ ">")
    | some TsTypeDefKind.Union =>
      match union with
      | none => none
      | some l => do
          let parts ← render_ts_type_list l
          pure (join_trunc " | " parts)

/-- Renders each element of a list of type expressions, propagating the
first failure, as the joining loops of the source do. -/
def render_ts_type_list : List TsTypeDef → Option (List String)
  | [] => some []
  | t :: ts => do
      let s ← render_ts_type t
      let rest ← render_ts_type_list ts
      pure (s :: rest)

/-- Renders each parameter the way the loop body of render_params does: the
parameter name, followed by ": " and the rendered type if one is present. -/
def render_params_list : List ParamDef → Option (List String)
  | [] => some []
  | ⟨name, ts_type⟩ :: ps => do
      let s ← match ts_type with
        | none => pure name
        | some t => do
            let r ← render_ts_type t
            pure (name ++ ": " ++ r)
      let rest ← render_params_list ps
      pure (s :: rest)

end

/-- Embedding of TerminalPrinter::render_params: each parameter rendered as
its name with its optional type annotation, joined with ", " by the
append-then-truncate idiom (empty list renders as the empty string). -/
def render_params (params : List ParamDef) : Option String :=
  (render_params_list params).map (fun parts => join_trunc ", " parts)

/-- Kind discriminant of a documentation node (doc::DocNodeKind). -/
inductive DocNodeKind where
  | Function
  | Variable
  | Class
  | Enum
  | Interface
  | TypeAlias
  | Namespace
deriving DecidableEq

/-- Variable declaration kind (swc_ecma_ast::VarDeclKind). -/
inductive VarDeclKind where
  | Const
  | Let
  | Var
deriving DecidableEq

/-- Source location of a documentation node. -/
structure Location where
  filename : String
  line : Nat
  col : Nat

/-- Payload of a Variable documentation node. -/
structure VariableDef where
  kind : VarDeclKind
  ts_type : Option TsTypeDef

/-- Payload of a Function documentation node.  The return type is optional in
the data shape; the renderer unwraps it. -/
structure FunctionDef where
  params : List ParamDef
  return_type : Option TsTypeDef

/-- Payload of a Namespace documentation node, parameterized by the node type
(it is instantiated with DocNode below). -/
structure NamespaceDefF (ν : Type) where
  elements : List ν

/-- A documentation node (doc::DocNode).  Only the fields the terminal
printer reads are modelled; the payload fields are independently optional
next to the kind, as in the source. -/
inductive DocNode where
  | mk (kind : DocNodeKind) (name : String) (location : Location)
       (js_doc : Option String)
       (function_def : Option FunctionDef)
       (variable_def : Option VariableDef)
       (namespace_def : Option (NamespaceDefF DocNode))

/-- Namespace payload instantiated at DocNode. -/
abbrev NamespaceDef := NamespaceDefF DocNode

/-- Field accessor for the kind of a documentation node. -/
def DocNode.kind : DocNode → DocNodeKind
  | .mk k _ _ _ _ _ _ => k

/-- Field accessor for the name of a documentation node. -/
def DocNode.name : DocNode → String
  | .mk _ n _ _ _ _ _ => n

/-- Field accessor for the location of a documentation node. -/
def DocNode.location : DocNode → Location
  | .mk _ _ l _ _ _ _ => l

/-- Field accessor for the raw documentation comment. -/
def DocNode.js_doc : DocNode → Option String
  | .mk _ _ _ j _ _ _ => j

/-- Field accessor for the Function payload. -/
def DocNode.function_def : DocNode → Option FunctionDef
  | .mk _ _ _ _ f _ _ => f

/-- Field accessor for the Variable payload. -/
def DocNode.variable_def : DocNode → Option VariableDef
  | .mk _ _ _ _ _ v _ => v

/-- Field accessor for the Namespace payload. -/
def DocNode.namespace_def : DocNode → Option NamespaceDef
  | .mk _ _ _ _ _ _ n => n

/-- Embedding of TerminalPrinter::kind_order: the fixed kind precedence used
by the sort. -/
def kind_order : DocNodeKind → Int
  | DocNodeKind.Function => 0
  | DocNodeKind.Variable => 1
  | DocNodeKind.Class => 2
  | DocNodeKind.Enum => 3
  | DocNodeKind.Interface => 4
  | DocNodeKind.TypeAlias => 5
  | DocNodeKind.Namespace => 6

/-- The comparator closure passed to the sort in print_: compare the kind
orders and, when equal, the names.  String comparison is by character code,
which agrees with the byte-wise comparison of Rust strings because UTF-8
byte order coincides with code point order. -/
def cmp_node (a b : DocNode) : Ordering :=
  let kind_cmp := compare (kind_order a.kind) (kind_order b.kind)
  if kind_cmp = Ordering.eq then compare a.name b.name else kind_cmp

/-- Insertion of a node into a list sorted by cmp_node, placing it before
the first element it does not compare greater than. -/
def insertNode (a : DocNode) : List DocNode → List DocNode
  | [] => [a]
  | b :: bs => if cmp_node a b ≠ Ordering.gt then a :: b :: bs else b :: insertNode a bs

/-- The sort performed on the copied collection at the top of print_.  The
source uses Rust's sort_unstable_by with the cmp_node comparator; this model
uses an insertion sort, which agrees with it on every comparison-determined
position (the relative order of cmp_node-equal nodes is not guaranteed by
sort_unstable_by and is not relied upon by any proof below). -/
def sortNodes (nodes : List DocNode) : List DocNode :=
  nodes.foldr insertNode []

/-- The loop of print_indent: emit "  " once per iteration. -/
def print_indent_go : Nat → String
  | 0 => ""
  | n + 1 => "  " ++ print_indent_go n

/-- Embedding of TerminalPrinter::print_indent: the Rust loop for _ in
0..indent prints two spaces per iteration; an i64 indent of zero or below
produces an empty iteration range, hence no output and no failure. -/
def print_indent (indent : Int) : String :=
  print_indent_go indent.toNat

/-- Embedding of TerminalPrinter::print_jsdoc.  The comment is split into
paragraphs on double newlines, newlines inside a paragraph become spaces,
and each emitted paragraph is printed at one level deeper than the indent
argument.  Truncated mode emits only the first paragraph. -/
def print_jsdoc (jsdoc : String) (truncated : Bool) (indent : Int) : String :=
  let lines := jsdocLines jsdoc
  if truncated then
    print_indent (indent + 1) ++ lines.headD "" ++ "\n"
  else
    String.join (lines.map (fun line => print_indent (indent + 1) ++ line ++ "\n"))

/-- Rendering of a variable declaration kind, from print_variable_signature. -/
def varDeclKindStr : VarDeclKind → String
  | VarDeclKind.Const => "const"
  | VarDeclKind.Let => "let"
  | VarDeclKind.Var => "var"

/-- Embedding of TerminalPrinter::print_function_signature, including the
trailing newline of the println. -/
def print_function_signature (node : DocNode) (indent : Int) : Option String :=
  match node.function_def with
  | none => none
  | some fd =>
    match fd.return_type with
    | none => none
    | some ret => do
        let ps ← render_params fd.params
        let r ← render_ts_type ret
        pure (print_indent indent ++ "function " ++ node.name ++ "(" ++ ps ++ "): " ++ r ++ "\n")

/-- Embedding of TerminalPrinter::print_variable_signature. -/
def print_variable_signature (node : DocNode) (indent : Int) : Option String :=
  match node.variable_def with
  | none => none
  | some vd => do
      let t ← match vd.ts_type with
        | none => pure ""
        | some ty => (render_ts_type ty).map (fun s => ": " ++ s)
      pure (print_indent indent ++ varDeclKindStr vd.kind ++ " " ++ node.name ++ t ++ "\n")

/-- Embedding of TerminalPrinter::print_class_signature. -/
def print_class_signature (node : DocNode) (indent : Int) : String :=
  print_indent indent ++ "class " ++ node.name ++ "\n"

/-- Embedding of TerminalPrinter::print_enum_signature. -/
def print_enum_signature (node : DocNode) (indent : Int) : String :=
  print_indent indent ++ "enum " ++ node.name ++ "\n"

/-- Embedding of TerminalPrinter::print_interface_signature. -/
def print_interface_signature (node : DocNode) (indent : Int) : String :=
  print_indent indent ++ "interface " ++ node.name ++ "\n"

/-- Embedding of TerminalPrinter::print_type_alias_signature. -/
def print_type_alias_signature (node : DocNode) (indent : Int) : String :=
  print_indent indent ++ "type " ++ node.name ++ "\n"

/-- Embedding of TerminalPrinter::print_namespace_signature. -/
def print_namespace_signature (node : DocNode) (indent : Int) : String :=
  print_indent indent ++ "namespace " ++ node.name ++ "\n"

/-- The per-kind signature dispatch shared by print_ and print_details. -/
def print_signature (node : DocNode) (indent : Int) : Option String :=
  match node.kind with
  | DocNodeKind.Function => print_function_signature node indent
  | DocNodeKind.Variable => print_variable_signature node indent
  | DocNodeKind.Class => some (print_class_signature node indent)
  | DocNodeKind.Enum => some (print_enum_signature node indent)
  | DocNodeKind.Interface => some (print_interface_signature node indent)
  | DocNodeKind.TypeAlias => some (print_type_alias_signature node indent)
  | DocNodeKind.Namespace => some (print_namespace_signature node indent)

/-- The truncated comment line the print_ loop emits after a signature when
a js_doc comment is present, and nothing otherwise. -/
def jsdoc_part (js_doc : Option String) (indent : Int) : String :=
  match js_doc with
  | some j => print_jsdoc j true indent
  | none => ""

/-- Size of an inserted node list, for the termination of print_. -/
theorem sizeOf_insertNode (a : DocNode) (l : List DocNode) :
    sizeOf (insertNode a l) = 1 + sizeOf a + sizeOf l := by
  induction l with
  | nil => simp [insertNode]
  | cons b bs ih =>
    simp only [insertNode]
    split <;> simp_arith [List.cons.sizeOf_spec, ih]

/-- Sorting the copy does not change its total size, so the recursion of
print_ into namespace elements is well-founded. -/
theorem sizeOf_sortNodes (l : List DocNode) : sizeOf (sortNodes l) = sizeOf l := by
  induction l with
  | nil => rfl
  | cons a as ih =>
    simp only [sortNodes, List.foldr] at *
    rw [sizeOf_insertNode, ih, List.cons.sizeOf_spec]

mutual

/-- Embedding of TerminalPrinter::print_: sort a copy of the collection,
then for each node print its signature, its truncated comment when present,
a blank separator line, and, for a namespace, the recursively printed
children at indent + 1 followed by one extra blank line. -/
def print_ (doc_nodes : List DocNode) (indent : Int) : Option String :=
  print_sorted (sortNodes doc_nodes) indent
termination_by (sizeOf doc_nodes, 1)
decreasing_by
  rw [sizeOf_sortNodes]
  exact Prod.Lex.right _ (by omega)

/-- The loop body of print_ over the already sorted collection. -/
def print_sorted : List DocNode → Int → Option String
  | [], _ => some ""
  | DocNode.mk kind name location js_doc function_def variable_def namespace_def :: rest,
    indent => do
      let node := DocNode.mk kind name location js_doc function_def variable_def namespace_def
      let sig ← print_signature node indent
      let ns ← match kind, namespace_def with
        | DocNodeKind.Namespace, some (NamespaceDefF.mk elements) =>
            (print_ elements (indent + 1)).map (fun s => s ++ "\n")
        | DocNodeKind.Namespace, none => none
        | _, _ => pure ""
      let rest_out ← print_sorted rest indent
      pure (sig ++ jsdoc_part js_doc indent ++ "\n" ++ ns ++ rest_out)
termination_by l _ => (sizeOf l, 0)
decreasing_by
  all_goals refine Prod.Lex.left _ _ ?_
  all_goals simp [List.cons.sizeOf_spec, DocNode.mk.sizeOf_spec, NamespaceDefF.mk.sizeOf_spec]
  all_goals omega

end

/-- Embedding of TerminalPrinter::print: the public entry point prints the
collection at depth zero. -/
def print (doc_nodes : List DocNode) : Option String :=
  print_ doc_nodes 0

/-- The location header plus the full signature of the detail view: the part
of print_details that precedes the comment. -/
def print_details_sig (node : DocNode) : Option String := do
  let sig ← print_signature node 0
  pure ("Defined in " ++ node.location.filename ++ ":" ++ toString node.location.line
    ++ ":" ++ toString node.location.col ++ ".\n\n" ++ sig)

/-- Embedding of TerminalPrinter::print_details: the location header, then
the node's signature at depth zero, then, when a comment is present, the
full (non-truncated) comment printed by print_jsdoc with indent argument 1. -/
def print_details (node : DocNode) : Option String := do
  let hs ← print_details_sig node
  pure (hs ++ (match node.js_doc with
    | some j => print_jsdoc j false 1
    | none => ""))

mutual

/-- The payload-matches-tag well-formedness invariant of the data model, from
the specification: the payload field matching the kind discriminant is
present, recursively so for nested type expressions. -/
def wfTsType : TsTypeDef → Bool
  | TsTypeDef.mk _ kind array conditional_type fn_or_constructor
      indexed_access intersection keyword literal parenthesized rest_
      tuple type_operator type_query type_ref union =>
    match kind with
    | none => false
    | some TsTypeDefKind.Array =>
      match array with
      | none => false
      | some inner => wfTsType inner
    | some TsTypeDefKind.Conditional =>
      match conditional_type with
      | none => false
      | some ⟨c, e, t, f⟩ => wfTsType c && wfTsType e && wfTsType t && wfTsType f
    | some TsTypeDefKind.FnOrConstructor =>
      match fn_or_constructor with
      | none => false
      | some ⟨_, params, r⟩ => wfParamList params && wfTsType r
    | some TsTypeDefKind.IndexedAccess =>
      match indexed_access with
      | none => false
      | some ⟨o, i⟩ => wfTsType o && wfTsType i
    | some TsTypeDefKind.Intersection =>
      match intersection with
      | none => false
      | some l => wfTsTypeList l
    | some TsTypeDefKind.Keyword => keyword.isSome
    | some TsTypeDefKind.Literal =>
      match literal with
      | none => false
      | some lit =>
        match lit.kind with
        | LiteralDefKind.Boolean => lit.boolean.isSome
        | LiteralDefKind.String => lit.string.isSome
        | LiteralDefKind.Number => lit.number.isSome
    | some TsTypeDefKind.Optional => true
    | some TsTypeDefKind.Parenthesized =>
      match parenthesized with
      | none => false
      | some inner => wfTsType inner
    | some TsTypeDefKind.Rest =>
      match rest_ with
      | none => false
      | some inner => wfTsType inner
    | some TsTypeDefKind.This => true
    | some TsTypeDefKind.Tuple =>
      match tuple with
      | none => false
      | some l => wfTsTypeList l
    | some TsTypeDefKind.TypeLiteral => true
    | some TsTypeDefKind.TypeOperator =>
      match type_operator with
      | none => false
      | some ⟨_, ty⟩ => wfTsType ty
    | some TsTypeDefKind.TypeQuery => type_query.isSome
    | some TsTypeDefKind.TypeRef =>
      match type_ref with
      | none => false
      | some ⟨_, tps⟩ =>
        match tps with
        | none => true
        | some l => wfTsTypeList l
    | some TsTypeDefKind.Union =>
      match union with
      | none => false
      | some l => wfTsTypeList l

/-- Well-formedness of every element of a list of type expressions. -/
def wfTsTypeList : List TsTypeDef → Bool
  | [] => true
  | t :: ts => wfTsType t && wfTsTypeList ts

/-- Well-formedness of every type annotation of a parameter list. -/
def wfParamList : List ParamDef → Bool
  | [] => true
  | ⟨_, ts_type⟩ :: ps =>
    (match ts_type with
     | none => true
     | some t => wfTsType t) && wfParamList ps

end

mutual

/-- The renderer succeeds on exactly the well-formed type expressions. -/
theorem render_isSome : ∀ (t : TsTypeDef), (render_ts_type t).isSome = wfTsType t
  | TsTypeDef.mk rep kind array cond fn idx inter kw lit par rst tup top tq tr un => by
    cases kind with
    | none => simp [render_ts_type, wfTsType]
    | some k =>
      cases k with
      | Array =>
        cases array with
        | none => simp [render_ts_type, wfTsType]
        | some inner =>
          have h := render_isSome inner
          simp only [render_ts_type, wfTsType]
          cases hr : render_ts_type inner <;> simp_all
      | Conditional =>
        cases cond with
        | none => simp [render_ts_type, wfTsType]
        | some c =>
          obtain ⟨ct, et, tt', ft⟩ := c
          have h1 := render_isSome ct
          have h2 := render_isSome et
          have h3 := render_isSome tt'
          have h4 := render_isSome ft
          simp only [render_ts_type, wfTsType]
          cases hr1 : render_ts_type ct <;> cases hr2 : render_ts_type et <;>
            cases hr3 : render_ts_type tt' <;> cases hr4 : render_ts_type ft <;> simp_all
      | FnOrConstructor =>
        cases fn with
        | none => simp [render_ts_type, wfTsType]
        | some c =>
          obtain ⟨ctor, params, r⟩ := c
          have h1 := render_params_list_isSome params
          have h2 := render_isSome r
          simp only [render_ts_type, wfTsType]
          cases hr1 : render_params_list params <;> cases hr2 : render_ts_type r <;> simp_all
      | IndexedAccess =>
        cases idx with
        | none => simp [render_ts_type, wfTsType]
        | some c =>
          obtain ⟨o, i⟩ := c
          have h1 := render_isSome o
          have h2 := render_isSome i
          simp only [render_ts_type, wfTsType]
          cases hr1 : render_ts_type o <;> cases hr2 : render_ts_type i <;> simp_all
      | Intersection =>
        cases inter with
        | none => simp [render_ts_type, wfTsType]
        | some l =>
          have h := render_list_isSome l
          simp only [render_ts_type, wfTsType]
          cases hr : render_ts_type_list l <;> simp_all
      | Keyword => simp [render_ts_type, wfTsType]
      | Literal =>
        cases lit with
        | none => simp [render_ts_type, wfTsType]
        | some ld =>
          obtain ⟨lk, b, s, n⟩ := ld
          cases lk with
          | Boolean => cases b <;> simp [render_ts_type, wfTsType]
          | String => cases s <;> simp [render_ts_type, wfTsType]
          | Number => cases n <;> simp [render_ts_type, wfTsType]
      | Optional => simp [render_ts_type, wfTsType]
      | Parenthesized =>
        cases par with
        | none => simp [render_ts_type, wfTsType]
        | some inner =>
          have h := render_isSome inner
          simp only [render_ts_type, wfTsType]
          cases hr : render_ts_type inner <;> simp_all
      | Rest =>
        cases rst with
        | none => simp [render_ts_type, wfTsType]
        | some inner =>
          have h := render_isSome inner
          simp only [render_ts_type, wfTsType]
          cases hr : render_ts_type inner <;> simp_all
      | This => simp [render_ts_type, wfTsType]
      | Tuple =>
        cases tup with
        | none => simp [render_ts_type, wfTsType]
        | some l =>
          have h := render_list_isSome l
          simp only [render_ts_type, wfTsType]
          cases hr : render_ts_type_list l <;> simp_all
      | TypeLiteral => simp [render_ts_type, wfTsType]
      | TypeOperator =>
        cases top with
        | none => simp [render_ts_type, wfTsType]
        | some c =>
          obtain ⟨op, ty⟩ := c
          have h := render_isSome ty
          simp only [render_ts_type, wfTsType]
          cases hr : render_ts_type ty <;> simp_all
      | TypeQuery => cases tq <;> simp [render_ts_type, wfTsType]
      | TypeRef =>
        cases tr with
        | none => simp [render_ts_type, wfTsType]
        | some c =>
          obtain ⟨nm, tps⟩ := c
          cases tps with
          | none => simp [render_ts_type, wfTsType]
          | some l =>
            have h := render_list_isSome l
            simp only [render_ts_type, wfTsType]
            cases hr : render_ts_type_list l <;> simp_all
      | Union =>
        cases un with
        | none => simp [render_ts_type, wfTsType]
        | some l =>
          have h := render_list_isSome l
          simp only [render_ts_type, wfTsType]
          cases hr : render_ts_type_list l <;> simp_all

/-- The list renderer succeeds exactly on lists of well-formed expressions. -/
theorem render_list_isSome : ∀ (l : List TsTypeDef),
    (render_ts_type_list l).isSome = wfTsTypeList l
  | [] => by simp [render_ts_type_list, wfTsTypeList]
  | t :: ts => by
    have h1 := render_isSome t
    have h2 := render_list_isSome ts
    simp only [render_ts_type_list, wfTsTypeList]
    cases hr1 : render_ts_type t <;> cases hr2 : render_ts_type_list ts <;> simp_all

/-- The parameter-list renderer succeeds exactly on well-formed parameters. -/
theorem render_params_list_isSome : ∀ (ps : List ParamDef),
    (render_params_list ps).isSome = wfParamList ps
  | [] => by simp [render_params_list, wfParamList]
  | ⟨nm, oty⟩ :: ps => by
    have h2 := render_params_list_isSome ps
    cases oty with
    | none =>
      simp only [render_params_list, wfParamList]
      cases hr : render_params_list ps <;> simp_all
    | some t =>
      have h1 := render_isSome t
      simp only [render_params_list, wfParamList]
      cases hq : render_ts_type t <;> cases hr : render_params_list ps <;> simp_all

end

/-- The incremental loop leaves exactly one trailing separator after the
intercalation of a non-empty list. -/
theorem pushAll_eq (sep : String) (p : String) (ps : List String) :
    pushAll sep (p :: ps) = intercalateSpec sep (p :: ps) ++ sep := by
  induction ps generalizing p with
  | nil => simp [pushAll, intercalateSpec]
  | cons q qs ih =>
    rw [pushAll, ih q]
    simp [intercalateSpec, String.append_assoc]

/-- Truncating an appended suffix by its length recovers the left part. -/
theorem truncateTo_append (s t : String) :
    truncateTo (s ++ t) ((s ++ t).length - t.length) = s := by
  have hlen : (s ++ t).length - t.length = s.data.length := by
    rw [String.length_append]
    have h : s.length = s.data.length := rfl
    omega
  rw [truncateTo, hlen]
  cases s with
  | mk sd =>
    cases t with
    | mk td =>
      simp [String.data_append, List.take_left]

/-- The append-then-truncate joining idiom is extensionally equal to
intercalation, for every separator and every list length. -/
theorem join_trunc_eq (sep : String) (parts : List String) :
    join_trunc sep parts = intercalateSpec sep parts := by
  cases parts with
  | nil => rfl
  | cons p ps =>
    simp only [join_trunc]
    rw [pushAll_eq]
    exact truncateTo_append _ _

/-- The indentation loop emits exactly two spaces per level. -/
theorem print_indent_go_eq (n : Nat) :
    print_indent_go n = String.mk (List.replicate (2 * n) ' ') := by
  induction n with
  | zero => rfl
  | succ m ih =>
    show "  " ++ print_indent_go m = _
    rw [ih]
    apply String.ext
    simp [String.data_append, List.replicate_succ, Nat.mul_succ, Nat.mul_comm]

/-- Example builder: a Keyword type expression. -/
def tsKeyword (k : String) : TsTypeDef :=
  .mk "" (some TsTypeDefKind.Keyword) none none none none none (some k) none none none none none none none none

/-- Example builder: a Union type expression. -/
def tsUnion (l : List TsTypeDef) : TsTypeDef :=
  .mk "" (some TsTypeDefKind.Union) none none none none none none none none none none none none none (some l)

/-- Example builder: an Intersection type expression. -/
def tsIntersection (l : List TsTypeDef) : TsTypeDef :=
  .mk "" (some TsTypeDefKind.Intersection) none none none none (some l) none none none none none none none none none

/-- Example builder: a Tuple type expression. -/
def tsTuple (l : List TsTypeDef) : TsTypeDef :=
  .mk "" (some TsTypeDefKind.Tuple) none none none none none none none none none (some l) none none none none

/-- Example builder: a TypeRef type expression. -/
def tsTypeRef (nm : String) (tps : Option (List TsTypeDef)) : TsTypeDef :=
  .mk "" (some TsTypeDefKind.TypeRef) none none none none none none none none none none none none (some ⟨nm, tps⟩) none

/-- Example builder: an Optional type expression. -/
def tsOptional : TsTypeDef :=
  .mk "" (some TsTypeDefKind.Optional) none none none none none none none none none none none none none none

/-- C1: the counterexample input, a TypeRef named Foo whose type-argument
list is present but empty. -/
def exTypeRefEmptyArgs : TsTypeDef := tsTypeRef "Foo" (some [])

/-- C1 counterexample: a TypeRef whose type-argument list is present but
empty renders as the name followed by angle brackets, not as the name
alone, contradicting the claim. -/
theorem c1_counterexample :
    render_ts_type exTypeRefEmptyArgs = some "Foo<>" ∧
    render_ts_type exTypeRefEmptyArgs ≠ some "Foo" := by
  constructor
  · decide
  · decide

/-- C1 (amended): for every TypeRef type expression whose type-argument
list is present but empty, the renderer returns the type name directly
followed by an empty pair of angle brackets. -/
theorem c1_typeref_empty_args (t : TsTypeDef) (name : String)
    (h1 : t.kind = some TsTypeDefKind.TypeRef)
    (h2 : t.type_ref = some ⟨name, some []⟩) :
    render_ts_type t = some (name ++ "<>") := by
  obtain ⟨rep, kind, array, cond, fn, idx, inter, kw, lit, par, rst, tup, top, tq, tr, un⟩ := t
  simp only [TsTypeDef.kind] at h1
  simp only [TsTypeDef.type_ref] at h2
  subst h1
  subst h2
  simp [render_ts_type, render_ts_type_list, join_trunc]
  have h : ("<" : String) ++ "" ++ ">" = "<>" := rfl
  rw [← h]
  simp [String.append_assoc, String.append_empty]

/-- C1 witness: the amended theorem applied at the concrete input. -/
theorem c1_witness :
    render_ts_type exTypeRefEmptyArgs = some ("Foo" ++ "<>") :=
  c1_typeref_empty_args exTypeRefEmptyArgs "Foo" rfl rfl

/-- C9: for every Optional type expression the renderer returns exactly the
placeholder text, never the rendering of a wrapped type. -/
theorem c9_optional_placeholder (t : TsTypeDef)
    (h : t.kind = some TsTypeDefKind.Optional) :
    render_ts_type t = some "_optional_" := by
  obtain ⟨rep, kind, array, cond, fn, idx, inter, kw, lit, par, rst, tup, top, tq, tr, un⟩ := t
  simp only [TsTypeDef.kind] at h
  subst h
  simp [render_ts_type]

/-- C9 witness: the theorem applied at a concrete Optional node. -/
theorem c9_witness : render_ts_type tsOptional = some "_optional_" :=
  c9_optional_placeholder tsOptional rfl

/-- C4: the concrete union input used by the witness. -/
def exUnionAB : TsTypeDef := tsUnion [tsKeyword "a", tsKeyword "b"]

/-- C4: for every Union, Intersection or Tuple type expression whose
element list renders successfully, the append-then-truncate implementation
produces exactly the intercalation of the rendered elements by the variant
separator, for every list length (empty list: empty string; singleton: the
element alone; longer lists: joined with the separator, no leading or
trailing separator). -/
theorem c4_join_lists (t : TsTypeDef) (l : List TsTypeDef) (parts : List String)
    (hl : render_ts_type_list l = some parts) :
    (t.kind = some TsTypeDefKind.Union → t.union = some l →
       render_ts_type t = some (intercalateSpec " | " parts)) ∧
    (t.kind = some TsTypeDefKind.Intersection → t.intersection = some l →
       render_ts_type t = some (intercalateSpec " & " parts)) ∧
    (t.kind = some TsTypeDefKind.Tuple → t.tuple = some l →
       render_ts_type t = some (intercalateSpec ", " parts)) := by
  obtain ⟨rep, kind, array, cond, fn, idx, inter, kw, lit, par, rst, tup, top, tq, tr, un⟩ := t
  simp only [TsTypeDef.kind, TsTypeDef.union, TsTypeDef.intersection, TsTypeDef.tuple]
  refine ⟨fun hk hu => ?_, fun hk hu => ?_, fun hk hu => ?_⟩ <;>
    subst hk <;> subst hu <;> simp [render_ts_type, hl, join_trunc_eq]

/-- C4 witness: the theorem applied at a two-element union of keywords. -/
theorem c4_witness :
    render_ts_type exUnionAB = some (intercalateSpec " | " ["a", "b"]) :=
  (c4_join_lists exUnionAB [tsKeyword "a", tsKeyword "b"] ["a", "b"] (by decide)).1 rfl rfl

/-- C5: the comment formatter splits on double newlines, reflows single
newlines to spaces, emits only the first paragraph in truncated mode and
every paragraph on its own indented line in full mode; in particular for
the two-paragraph example comment of the specification. -/
theorem c5_comment_paragraphs :
    (∀ (jsdoc : String) (indent : Int),
       print_jsdoc jsdoc true indent =
         print_indent (indent + 1) ++ (jsdocLines jsdoc).headD "" ++ "\n") ∧
    (∀ (jsdoc : String) (indent : Int),
       print_jsdoc jsdoc false indent =
         String.join ((jsdocLines jsdoc).map
           (fun line => print_indent (indent + 1) ++ line ++ "\n"))) ∧
    jsdocLines "Para one.\n\nPara two." = ["Para one.", "Para two."] ∧
    jsdocLines "line one\nline two\n\nsecond" = ["line one line two", "second"] ∧
    print_jsdoc "Para one.\n\nPara two." true 0 = "  Para one.\n" ∧
    print_jsdoc "Para one.\n\nPara two." false 0 = "  Para one.\n  Para two.\n" := by
  refine ⟨fun j i => rfl, fun j i => rfl, by decide, by decide, by decide, by decide⟩

/-- The payload-matches-tag invariant of a Function node as the renderer
needs it: the function payload and its return type are present and the
parameter types and return type are recursively well-formed. -/
def wfFunctionNode (node : DocNode) : Bool :=
  match node.function_def with
  | none => false
  | some fd =>
    match fd.return_type with
    | none => false
    | some ret => wfParamList fd.params && wfTsType ret

/-- The payload-matches-tag invariant of a Variable node as the renderer
needs it: the variable payload is present and its optional type annotation
is well-formed when present. -/
def wfVariableNode (node : DocNode) : Bool :=
  match node.variable_def with
  | none => false
  | some vd =>
    match vd.ts_type with
    | none => true
    | some t => wfTsType t

/-- C6: every render routine fails (and the failure aborts the render)
exactly on inputs violating the payload-matches-tag precondition: the type
renderer and the function and variable signature renderers succeed if and
only if their input is well-formed, and the tree printer aborts on a
Namespace node lacking its namespace payload. -/
theorem c6_mismatch_aborts :
    (∀ t : TsTypeDef, (render_ts_type t).isSome = wfTsType t) ∧
    (∀ (node : DocNode) (indent : Int),
       (print_function_signature node indent).isSome = wfFunctionNode node) ∧
    (∀ (node : DocNode) (indent : Int),
       (print_variable_signature node indent).isSome = wfVariableNode node) ∧
    (∀ (name : String) (loc : Location) (jd : Option String)
       (fd : Option FunctionDef) (vd : Option VariableDef)
       (rest : List DocNode) (indent : Int),
       print_sorted (DocNode.mk DocNodeKind.Namespace name loc jd fd vd none :: rest)
         indent = none) := by
  refine ⟨render_isSome, ?_, ?_, ?_⟩
  · intro node indent
    cases hf : node.function_def with
    | none => simp [print_function_signature, wfFunctionNode, hf]
    | some fd =>
      cases hr : fd.return_type with
      | none => simp [print_function_signature, wfFunctionNode, hf, hr]
      | some ret =>
        have h1 := render_params_list_isSome fd.params
        have h2 := render_isSome ret
        simp only [print_function_signature, wfFunctionNode, hf, hr, render_params]
        cases hq : render_params_list fd.params <;> cases hw : render_ts_type ret <;> simp_all
  · intro node indent
    cases hv : node.variable_def with
    | none => simp [print_variable_signature, wfVariableNode, hv]
    | some vd =>
      cases ht : vd.ts_type with
      | none => simp [print_variable_signature, wfVariableNode, hv, ht]
      | some ty =>
        have h := render_isSome ty
        simp only [print_variable_signature, wfVariableNode, hv, ht]
        cases hw : render_ts_type ty <;> simp_all
  · intro name loc jd fd vd rest indent
    simp [print_sorted, print_signature, DocNode.kind, print_namespace_signature]

/-- C7: the concrete function node of the specification example. -/
def exAddNode : DocNode :=
  .mk DocNodeKind.Function "add" ⟨"a.ts", 1, 1⟩ none
    (some ⟨[⟨"a", some (tsKeyword "number")⟩, ⟨"b", some (tsKeyword "number")⟩],
           some (tsKeyword "number")⟩)
    none none

/-- C7: parameters render as their name optionally followed by a colon and
their rendered type, joined by a comma and space with the empty list giving
the empty string, and every Function node prints one line of the form
function NAME(PARAMS): RETURN_TYPE; in particular the specification's add
example renders exactly as stated. -/
theorem c7_function_signature :
    (∀ (params : List ParamDef) (parts : List String),
       render_params_list params = some parts →
       render_params params = some (intercalateSpec ", " parts)) ∧
    render_params [] = some "" ∧
    (∀ (node : DocNode) (indent : Int) (fd : FunctionDef) (ret : TsTypeDef) (ps rs : String),
       node.function_def = some fd → fd.return_type = some ret →
       render_params fd.params = some ps → render_ts_type ret = some rs →
       print_function_signature node indent =
         some (print_indent indent ++ "function " ++ node.name ++ "(" ++ ps ++ "): "
           ++ rs ++ "\n")) ∧
    print_function_signature exAddNode 0 =
      some "function add(a: number, b: number): number\n" := by
  refine ⟨?_, rfl, ?_, by decide⟩
  · intro params parts h
    simp [render_params, h, join_trunc_eq]
  · intro node indent fd ret ps rs h1 h2 h3 h4
    simp [print_function_signature, h1, h2, h3, h4]

/-- C7 witness: the signature-shape conjunct applied at the add example. -/
theorem c7_witness :
    print_function_signature exAddNode 0 =
      some (print_indent 0 ++ "function " ++ exAddNode.name ++ "(" ++ "a: number, b: number"
        ++ "): " ++ "number" ++ "\n") :=
  c7_function_signature.2.2.1 exAddNode 0
    ⟨[⟨"a", some (tsKeyword "number")⟩, ⟨"b", some (tsKeyword "number")⟩],
     some (tsKeyword "number")⟩
    (tsKeyword "number") "a: number, b: number" "number" rfl rfl (by decide) (by decide)

/-- C2: the counterexample input, a Class node with a one-paragraph comment. -/
def exClassNode : DocNode :=
  .mk DocNodeKind.Class "C" ⟨"a.ts", 1, 1⟩ (some "Hello") none none none

/-- C2 counterexample: in the single-node detail view the full-comment
paragraph is printed with four leading spaces, two indentation levels below
the depth-0 signature, not the claimed single level of two spaces. -/
theorem c2_counterexample :
    print_details exClassNode = some "Defined in a.ts:1:1.\n\nclass C\n    Hello\n" ∧
    print_details exClassNode ≠ some "Defined in a.ts:1:1.\n\nclass C\n  Hello\n" := by
  constructor
  · decide
  · decide

/-- C2 (amended): for every node carrying a comment, the detail view
appends the comment's paragraphs each prefixed by four spaces, i.e. two
indentation levels deeper than the depth-0 signature, because print_jsdoc
emits one level below its indent argument and print_details passes 1. -/
theorem c2_details_two_levels (node : DocNode) (j : String)
    (hj : node.js_doc = some j) :
    print_details node = (print_details_sig node).map
      (fun s => s ++ String.join ((jsdocLines j).map (fun p => "    " ++ p ++ "\n"))) := by
  have hpj : print_jsdoc j false 1 =
      String.join ((jsdocLines j).map (fun p => "    " ++ p ++ "\n")) := rfl
  simp only [print_details, hj]
  cases h : print_details_sig node <;> simp [hpj]

/-- C2 witness: the amended theorem applied at the concrete class node. -/
theorem c2_witness :
    print_details exClassNode = (print_details_sig exClassNode).map
      (fun s => s ++ String.join ((jsdocLines "Hello").map (fun p => "    " ++ p ++ "\n"))) :=
  c2_details_two_levels exClassNode "Hello" rfl

/-- C8: a class child used by the namespace examples. -/
def exNsC : DocNode := .mk DocNodeKind.Class "C" ⟨"a.ts", 1, 1⟩ none none none none

/-- C8: a namespace with no children. -/
def exNs0 : DocNode :=
  .mk DocNodeKind.Namespace "N" ⟨"a.ts", 1, 1⟩ none none none (some ⟨[]⟩)

/-- C8: a namespace with one child. -/
def exNs1 : DocNode :=
  .mk DocNodeKind.Namespace "N" ⟨"a.ts", 1, 1⟩ none none none (some ⟨[exNsC]⟩)

/-- C8: first class child of the two-child namespace. -/
def exNs2A : DocNode := .mk DocNodeKind.Class "A" ⟨"a.ts", 1, 1⟩ none none none none

/-- C8: second class child of the two-child namespace. -/
def exNs2B : DocNode := .mk DocNodeKind.Class "B" ⟨"a.ts", 1, 1⟩ none none none none

/-- C8: a namespace with two children. -/
def exNs2 : DocNode :=
  .mk DocNodeKind.Namespace "N" ⟨"a.ts", 1, 1⟩ none none none (some ⟨[exNs2A, exNs2B]⟩)

/-- C8: a Namespace node prints its signature line (plus its truncated
comment when present), then the blank separator line, then the recursively
printed children at indent + 1, then exactly one additional blank line;
with the exact outputs for namespaces of zero, one and two children. -/
theorem c8_namespace_blank_lines :
    (∀ (node : DocNode) (indent : Int) (children : List DocNode) (inner : String),
       node.kind = DocNodeKind.Namespace →
       node.namespace_def = some ⟨children⟩ →
       print_ children (indent + 1) = some inner →
       print_ [node] indent =
         some (print_namespace_signature node indent ++ jsdoc_part node.js_doc indent
           ++ "\n" ++ inner ++ "\n")) ∧
    print_ [exNs0] 0 = some "namespace N\n\n\n" ∧
    print_ [exNs1] 0 = some "namespace N\n\n  class C\n\n\n" ∧
    print_ [exNs2] 0 = some "namespace N\n\n  class A\n\n  class B\n\n\n" := by
  refine ⟨?_, ?_, ?_, ?_⟩
  · intro node indent children inner hk hn hp
    obtain ⟨kind, name, loc, jd, fd, vd, nd⟩ := node
    simp only [DocNode.kind] at hk
    simp only [DocNode.namespace_def] at hn
    subst hk
    subst hn
    simp [print_, sortNodes, insertNode, print_sorted, print_signature, DocNode.kind,
      DocNode.js_doc, hp, String.append_assoc, String.append_empty]
  · simp [print_, sortNodes, insertNode, print_sorted, print_signature,
      print_namespace_signature, jsdoc_part, exNs0, DocNode.kind, DocNode.name,
      DocNode.js_doc]
    decide
  · simp [print_, sortNodes, insertNode, print_sorted, print_signature,
      print_namespace_signature, print_class_signature, jsdoc_part, exNs1, exNsC,
      DocNode.kind, DocNode.name, DocNode.js_doc]
    decide
  · have hs : sortNodes [exNs2A, exNs2B] = [exNs2A, exNs2B] := rfl
    have hinner : print_ [exNs2A, exNs2B] (1 : Int) = some "  class A\n\n  class B\n\n" := by
      rw [print_, hs]
      simp [print_sorted, print_signature, print_class_signature, jsdoc_part, exNs2A,
        exNs2B, DocNode.kind, DocNode.name, DocNode.js_doc]
      decide
    simp [print_, sortNodes, insertNode, print_sorted, print_signature,
      print_namespace_signature, jsdoc_part, exNs2, DocNode.kind, DocNode.name,
      DocNode.js_doc, hinner]
    decide

/-- C8 witness: the structural conjunct applied at the one-child namespace. -/
theorem c8_witness :
    print_ [exNs1] 0 =
      some (print_namespace_signature exNs1 0 ++ jsdoc_part exNs1.js_doc 0 ++ "\n"
        ++ "  class C\n\n" ++ "\n") :=
  c8_namespace_blank_lines.1 exNs1 0 [exNsC] "  class C\n\n" rfl rfl (by
    simp [print_, sortNodes, insertNode, print_sorted, print_signature,
      print_class_signature, jsdoc_part, exNsC, DocNode.kind, DocNode.name,
      DocNode.js_doc]
    decide)

/-- C10: the indentation routine never fails: it emits nothing for every
indentation depth of zero or below, and exactly two spaces per level for
every positive depth. -/
theorem c10_print_indent (d : Int) :
    (d ≤ 0 → print_indent d = "") ∧
    (0 < d → print_indent d = String.mk (List.replicate (2 * d.toNat) ' ')) := by
  constructor
  · intro h
    have hz : d.toNat = 0 := Int.toNat_of_nonpos h
    simp [print_indent, hz, print_indent_go]
  · intro _
    simp [print_indent, print_indent_go_eq]

/-- C10 witness: the theorem applied at a negative and a positive depth. -/
theorem c10_witness :
    ((-3 : Int) ≤ 0 ∧ print_indent (-3) = "") ∧
    (0 < (2 : Int) ∧ print_indent 2 = String.mk (List.replicate (2 * (2 : Int).toNat) ' ')) :=
  ⟨⟨by decide, (c10_print_indent (-3)).1 (by decide)⟩,
   ⟨by decide, (c10_print_indent 2).2 (by decide)⟩⟩
